import Mathlib

/-
  Shallow embedding of the message-localization engine
  (src/src/message_locator.rs) for verification.

  Locales are modelled as their normalized tag strings (parsing of locale
  tags is an external collaborator).  JSON documents (serde_json::Value)
  are modelled by the inductive JValue; objects are association lists with
  insert-in-place semantics.  The transport (filesystem or HTTP fetch plus
  UTF-8 decoding and JSON parsing) is modelled as an oracle from the
  resource path to a fetch outcome.  Recursive routines in the source that
  have no termination guard are given an explicit recursion-depth fuel
  argument; the value none models exhaustion of every finite depth, that
  is, divergence of the original recursion.
-/

namespace MessageLocator

/-- Locales are opaque normalized tags compared by equality. -/
abbrev Locale := String

/-- A JSON-like document node, modelling serde_json::Value.  Object fields
are an association list; serde maps have unique keys. -/
inductive JValue : Type where
  | null : JValue
  | bool (b : Bool) : JValue
  | num (n : Int) : JValue
  | str (s : String) : JValue
  | arr (xs : List JValue) : JValue
  | obj (fields : List (String × JValue)) : JValue
deriving Inhabited

/-- Association-list lookup (HashMap / serde Map get). -/
def assocGet {β : Type} : List (String × β) → String → Option β
  | [], _ => none
  | (k, v) :: rest, key => if k = key then some v else assocGet rest key

/-- Association-list insert: replace the value at an existing key in
place, otherwise append (HashMap / serde Map insert). -/
def assocInsert {β : Type} : List (String × β) → String → β → List (String × β)
  | [], key, v => [(key, v)]
  | (k, w) :: rest, key, v =>
    if k = key then (key, v) :: rest else (k, w) :: assocInsert rest key v

/-- Model of serde_json Value::get with a string key: a field lookup on
objects, none on every other node. -/
def jget : JValue → String → Option JValue
  | .obj fields, key => assocGet fields key
  | _, _ => none

/-- Model of serde_json Value::as_str. -/
def JValue.asStr : JValue → Option String
  | .str s => some s
  | _ => none

/-- Model of serde_json Value::as_object().is_some(). -/
def JValue.isObj : JValue → Bool
  | .obj _ => true
  | _ => false

/-- Descend through a document one key at a time (used to state theorems
about merged documents). -/
def jgetPath (root : JValue) (path : List String) : Option JValue :=
  path.foldl (fun r seg => r.bind (fun v => jget v seg)) (some root)

/-- Character class of the interpolation-token name: the regex class
A-Za-z0-9_- of apply_message. -/
def isNameChar (c : Char) : Bool :=
  c.isAlpha || c.isDigit || c = '_' || c = '-'

/-- Replacement text for one matched token name: variables[name] when
present, the literal text undefined otherwise. -/
def substVar (vars : List (String × String)) (name : List Char) : List Char :=
  match assocGet vars (String.mk name) with
  | some v => v.data
  | none => "undefined".data

/-- One left-to-right scan of the template, modelling
regex!(r"\$(\$|[A-Za-z0-9_-]+)").replace_all of apply_message.  The regex
crate matches leftmost-first, so at a dollar sign the escape branch is
tried before the greedy name branch.  Replacement text is emitted and
never rescanned.  The fuel argument only bounds the recursion depth:
every step consumes at least one input character, so an initial fuel
equal to the input length is always sufficient. -/
def applyMessageGo (vars : List (String × String)) : Nat → List Char → List Char
  | 0, l => l
  | _ + 1, [] => []
  | n + 1, c :: rest =>
    if c = '$' then
      match rest with
      | '$' :: rest2 => '$' :: applyMessageGo vars n rest2
      | _ =>
        let name := rest.takeWhile isNameChar
        if name = [] then '$' :: applyMessageGo vars n rest
        else substVar vars name ++ applyMessageGo vars n (rest.drop name.length)
    else c :: applyMessageGo vars n rest

/-- Model of MessageLocator::apply_message. -/
def apply_message (message : String) (vars : List (String × String)) : String :=
  String.mk (applyMessageGo vars message.data.length message.data)

/-- Model of MessageLocator::resolve_id: descend through the optional
per-locale document one identifier segment at a time via Value::get, then
require a string leaf via as_str. -/
def resolve_id (root : Option JValue) (id : List String) : Option String :=
  (id.foldl (fun r frag => r.bind (fun v => jget v frag)) root).bind JValue.asStr

/-- Splitting a string on a separator character, the way Rust
str::split and String::split collect segments (empty segments kept). -/
def splitSegsGo (sep : Char) : List Char → List Char → List String
  | [], acc => [String.mk acc.reverse]
  | c :: rest, acc =>
    if c = sep then String.mk acc.reverse :: splitSegsGo sep rest []
    else splitSegsGo sep rest (c :: acc)

/-- Split a string on a separator character; the result is never empty. -/
def splitSegs (sep : Char) (s : String) : List String :=
  splitSegsGo sep s.data []

/-- Joining segments with a dot, modelling Vec::join of get_formatted. -/
def joinDots : List String → String
  | [] => ""
  | [s] => s
  | s :: rest => s ++ "." ++ joinDots rest

/-- A caller-supplied format argument: the three cases of the
MessageLocatorFormatArgument trait.  litStr is the static-string
implementation (as_str), strVal covers String and the stringified numeric
scalars (as_string), varMap is the variable mapping (as_string_map). -/
inductive FormatArg : Type where
  | litStr (s : String) : FormatArg
  | strVal (s : String) : FormatArg
  | varMap (m : List (String × String)) : FormatArg

/-- The option-processing loop of get_formatted: suffix arguments are
appended to the identifier with an underscore, a variable-mapping
argument replaces the current mapping. -/
def composeLoop : List FormatArg → String → Option (List (String × String)) →
    String × Option (List (String × String))
  | [], id, vars => (id, vars)
  | .litStr s :: rest, id, vars => composeLoop rest (id ++ "_" ++ s) vars
  | .strVal s :: rest, id, vars => composeLoop rest (id ++ "_" ++ s) vars
  | .varMap m :: rest, id, _ => composeLoop rest id (some m)

/-- Model of MessageLocator::get_formatted_with_locale.  The source
recursion carries no cycle guard, so it is modelled with a recursion
depth: none models exhaustion of every finite depth (divergence of the
original recursion), some none is a terminated search that found nothing,
some (some r) is a found and interpolated message.  The fallback loop
returns the first found result and aborts on a diverging branch, exactly
as the early returns of the source loop do. -/
def get_formatted_with_locale (fb : List (Locale × List Locale))
    (assets : List (Locale × JValue)) :
    Nat → Locale → List String → List (String × String) → Option (Option String)
  | 0, _, _, _ => none
  | n + 1, locale, id, vars =>
    match resolve_id (assocGet assets locale) id with
    | some message => some (some (apply_message message vars))
    | none =>
      match assocGet fb locale with
      | none => some none
      | some fls =>
        fls.foldl (fun acc fl =>
          match acc with
          | none => none
          | some (some r) => some (some r)
          | some none => get_formatted_with_locale fb assets n fl id vars)
          (some none)

/-- The part of the locator state that load mutates. -/
structure LocatorState : Type where
  current_locale : Option Locale
  assets : List (Locale × JValue)

/-- The immutable configuration of a locator, as built by
MessageLocator::new from the options. -/
structure LocatorConfig : Type where
  locale_path_components : List (Locale × String)
  supported_locales : List Locale
  default_locale : Locale
  fallbacks : List (Locale × List Locale)
  assets_src : String
  assets_base_file_names : List String
  assets_clean_unused : Bool

/-- Model of MessageLocator::get_formatted: process the format arguments,
split the augmented identifier on dots, and search from the current
locale; a missing current locale or an exhausted search degrades to the
identifier segments rejoined with dots.  none models divergence of the
underlying fallback recursion. -/
def get_formatted (cfg : LocatorConfig) (st : LocatorState) (fuel : Nat)
    (id : String) (options : List FormatArg) : Option String :=
  let idVars := composeLoop options id none
  let vars := idVars.2.getD []
  let segs := splitSegs '.' idVars.1
  match st.current_locale with
  | none => some (joinDots segs)
  | some cur =>
    match get_formatted_with_locale cfg.fallbacks st.assets fuel cur segs vars with
    | none => none
    | some none => some (joinDots segs)
    | some (some r) => some r

/-- Model of MessageLocator::get. -/
def get (cfg : LocatorConfig) (st : LocatorState) (fuel : Nat) (id : String) :
    Option String :=
  get_formatted cfg st fuel id []

/-- The descend-and-assign loop of apply_deep, on the list of separated
name segments: intermediate segments ensure an object node (reusing an
existing object, otherwise installing a fresh empty one, which overwrites
any non-object value sitting there), and the final segment receives the
assigned value. -/
def applyDeepGo : List String → JValue → JValue → JValue
  | [], _, out => out
  | seg :: rest, assign, out =>
    match rest with
    | [] =>
      match out with
      | .obj fields => .obj (assocInsert fields seg assign)
      | other => other
    | _ :: _ =>
      let child :=
        match jget out seg with
        | some c => if c.isObj then c else .obj []
        | none => .obj []
      match out with
      | .obj fields => .obj (assocInsert fields seg (applyDeepGo rest assign child))
      | other => other

/-- Model of MessageLocator::apply_deep: the fragment name is split on
the path separator and the parsed value is assigned at the nested
position.  At every call site the output node is an object, so the
non-object branches of applyDeepGo (where the source would abort) are
unreachable. -/
def apply_deep (name : String) (assign : JValue) (output : JValue) : JValue :=
  applyDeepGo (splitSegs '/' name) assign output

/-- Insertion into the collected locale set (HashSet insert): a no-op on
an already present locale. -/
def insertLoc (l : Locale) (out : List Locale) : List Locale :=
  if l ∈ out then out else out ++ [l]

/-- Model of MessageLocator::enumerate_fallbacks.  The source recursion
inserts every direct fallback into the output set and recurses into it
unconditionally, with no visited guard; it is modelled with a recursion
depth, where none models exhaustion of every finite depth. -/
def enumerate_fallbacks (fb : List (Locale × List Locale)) :
    Nat → Locale → List Locale → Option (List Locale)
  | 0, _, _ => none
  | n + 1, locale, out =>
    ((assocGet fb locale).getD []).foldl (fun acc item =>
      match acc with
      | none => none
      | some out2 => enumerate_fallbacks fb n item (insertLoc item out2))
      (some out)

/-- Model of MessageLocator::current_locale_seq: the current locale plus
its enumerated fallbacks, empty when no locale is loaded. -/
def current_locale_seq (cfg : LocatorConfig) (st : LocatorState) (fuel : Nat) :
    Option (List Locale) :=
  match st.current_locale with
  | some c => enumerate_fallbacks cfg.fallbacks fuel c [c]
  | none => some []

/-- Outcome of fetching and parsing one fragment: a transport failure
(fs::read or the HTTP request returning an error), a UTF-8 or JSON parse
failure (where the source unwraps and aborts), or a parsed document. -/
inductive FetchResult : Type where
  | fetchErr : FetchResult
  | parseErr : FetchResult
  | ok (v : JValue) : FetchResult

/-- Outcome of load_single_locale: the source either aborts the process
(missing path component, parse failure), returns None (transport
failure), or returns the merged per-locale document. -/
inductive LoadStep : Type where
  | panicked : LoadStep
  | failed : LoadStep
  | loaded (v : JValue) : LoadStep

/-- The fragment loop of load_single_locale over the configured base file
names, merging each parsed fragment into the accumulating document. -/
def loadSingleGo (cfg : LocatorConfig) (fetch : String → FetchResult)
    (locale : Locale) : List String → JValue → LoadStep
  | [], r => .loaded r
  | base :: rest, r =>
    match assocGet cfg.locale_path_components locale with
    | none => .panicked
    | some comp =>
      match fetch (cfg.assets_src ++ "/" ++ comp ++ "/" ++ base ++ ".json") with
      | .fetchErr => .failed
      | .parseErr => .panicked
      | .ok v => loadSingleGo cfg fetch locale rest (apply_deep base v r)

/-- Model of MessageLocator::load_single_locale, starting from an empty
object document. -/
def load_single_locale (cfg : LocatorConfig) (fetch : String → FetchResult)
    (locale : Locale) : LoadStep :=
  loadSingleGo cfg fetch locale cfg.assets_base_file_names (.obj [])

/-- Outcome of loading every locale of the closure into the locally held
new-assets map. -/
inductive LoadAll : Type where
  | panicked : LoadAll
  | failed : LoadAll
  | ok (new_assets : List (Locale × JValue)) : LoadAll

/-- The per-locale loop of load: load each locale of the closure,
returning on the first failure, before any shared state is touched. -/
def loadLocales (cfg : LocatorConfig) (fetch : String → FetchResult) :
    List Locale → List (Locale × JValue) → LoadAll
  | [], acc => .ok acc
  | l :: rest, acc =>
    match load_single_locale cfg fetch l with
    | .panicked => .panicked
    | .failed => .failed
    | .loaded v => loadLocales cfg fetch rest (assocInsert acc l v)

/-- Overall outcome of a load call: a process abort, a failure return
(the source returns false; the state it left behind is recorded), or a
success return (the source returns true) with the committed state. -/
inductive LoadResult : Type where
  | panicked : LoadResult
  | failed (st : LocatorState) : LoadResult
  | ok (st : LocatorState) : LoadResult

/-- Model of MessageLocator::load: resolve the target locale (argument or
configured default), abort on an unsupported target, enumerate the
fallback closure, load every closure locale into a local map, and only
then commit: optionally clear the store, merge the new documents in, and
set the current locale.  none models divergence of the closure
enumeration. -/
def load (cfg : LocatorConfig) (fetch : String → FetchResult)
    (st : LocatorState) (new_locale : Option Locale) (fuel : Nat) :
    Option LoadResult :=
  let nl := new_locale.getD cfg.default_locale
  if nl ∈ cfg.supported_locales then
    match enumerate_fallbacks cfg.fallbacks fuel nl [nl] with
    | none => none
    | some to_load =>
      match loadLocales cfg fetch to_load [] with
      | .panicked => some .panicked
      | .failed => some (.failed st)
      | .ok new_assets =>
        let base := if cfg.assets_clean_unused then [] else st.assets
        some (.ok
          { current_locale := some nl
            assets := new_assets.foldl (fun a p => assocInsert a p.1 p.2) base })
  else some .panicked

/-- Model of MessageLocator::update_locale. -/
def update_locale (cfg : LocatorConfig) (fetch : String → FetchResult)
    (st : LocatorState) (new_locale : Locale) (fuel : Nat) : Option LoadResult :=
  load cfg fetch st (some new_locale) fuel

/-- The sibling loop of get_formatted_with_locale written as list
recursion: try each fallback in declared order, return the first found
result, and propagate divergence of a branch.  Proved equal to the foldl
inside get_formatted_with_locale. -/
def searchSiblings (fb : List (Locale × List Locale))
    (assets : List (Locale × JValue)) (n : Nat) :
    List Locale → List String → List (String × String) → Option (Option String)
  | [], _, _ => some none
  | fl :: rest, id, vars =>
    match get_formatted_with_locale fb assets n fl id vars with
    | none => none
    | some (some r) => some (some r)
    | some none => searchSiblings fb assets n rest id vars

/-- Modelled from the spec, section 4.5: the depth-first resolution
order over declared fallback lists, the locale itself first, then the
traversal of each declared fallback in declared order.  Cut off at the
same recursion depth as the search it is compared with. -/
def dfsOrder (fb : List (Locale × List Locale)) : Nat → Locale → List Locale
  | 0, _ => []
  | n + 1, loc => loc :: ((assocGet fb loc).getD []).flatMap (dfsOrder fb n)

/-- Modelled from the spec, section 4.5: the first template found for the
identifier when the locale documents are consulted in the given order. -/
def firstTemplate (assets : List (Locale × JValue)) (id : List String) :
    List Locale → Option String
  | [] => none
  | l :: rest =>
    match resolve_id (assocGet assets l) id with
    | some m => some m
    | none => firstTemplate assets id rest

/-- Modelled from the spec, section 4.6: the text a format argument
contributes to the identifier. -/
def suffixText : FormatArg → String
  | .litStr s => "_" ++ s
  | .strVal s => "_" ++ s
  | .varMap _ => ""

/-- Concatenation of suffix contributions. -/
def strJoin : List String → String
  | [] => ""
  | s :: rest => s ++ strJoin rest

/-- The variable mapping a single argument carries, if any. -/
def toMap : FormatArg → Option (List (String × String))
  | .varMap m => some m
  | _ => none

/-- Prefer the first operand when present. -/
def orVar {α : Type} : Option α → Option α → Option α
  | some m, _ => some m
  | none, b => b

/-- Modelled from the spec, section 4.6: the variable mapping of the last
variable-mapping argument of the list, if any. -/
def lastVarMap : List FormatArg → Option (List (String × String))
  | [] => none
  | o :: rest => orVar (lastVarMap rest) (toMap o)

/-- A cyclic fallback graph: A falls back to B and B falls back to A. -/
def cyc_fallbacks : List (Locale × List Locale) := [("A", ["B"]), ("B", ["A"])]

/-- A configuration whose fallback graph is the two-cycle. -/
def cyc_cfg : LocatorConfig :=
  { locale_path_components := [("A", "A"), ("B", "B")]
    supported_locales := ["A", "B"]
    default_locale := "A"
    fallbacks := cyc_fallbacks
    assets_src := "res/lang"
    assets_base_file_names := ["_"]
    assets_clean_unused := true }

/-- A state whose current locale is A and whose store is empty. -/
def cyc_st : LocatorState := { current_locale := some "A", assets := [] }

/-- Fallback graph of the resolution-order scenario: L declares the
fallbacks F1 then F2. -/
def res_fallbacks : List (Locale × List Locale) := [("L", ["F1", "F2"])]

/-- Store of the resolution-order scenario: only F2 defines x.y. -/
def res_assets : List (Locale × JValue) :=
  [("L", .obj []), ("F1", .obj []),
   ("F2", .obj [("x", .obj [("y", .str "from-F2")])])]

/-- Configuration of the resolution-order scenario. -/
def res_cfg : LocatorConfig :=
  { locale_path_components := [("L", "L"), ("F1", "F1"), ("F2", "F2")]
    supported_locales := ["L", "F1", "F2"]
    default_locale := "L"
    fallbacks := res_fallbacks
    assets_src := "res/lang"
    assets_base_file_names := ["_"]
    assets_clean_unused := true }

/-- State of the resolution-order scenario: L is active. -/
def res_st : LocatorState := { current_locale := some "L", assets := res_assets }

/-- A configuration that supports only en with a declared path component
and one fragment. -/
def en_cfg : LocatorConfig :=
  { locale_path_components := [("en", "en")]
    supported_locales := ["en"]
    default_locale := "en"
    fallbacks := []
    assets_src := "res/lang"
    assets_base_file_names := ["_"]
    assets_clean_unused := true }

/-- The same configuration with an empty supported set, so that every
target locale is unsupported. -/
def unsupported_cfg : LocatorConfig :=
  { locale_path_components := [("en", "en")]
    supported_locales := []
    default_locale := "en"
    fallbacks := []
    assets_src := "res/lang"
    assets_base_file_names := ["_"]
    assets_clean_unused := true }

/-- A configuration that supports de but declares no path component for
it, the misconfiguration the source meets when a fallback locale is not
itself a supported locale. -/
def nocomp_cfg : LocatorConfig :=
  { locale_path_components := []
    supported_locales := ["de"]
    default_locale := "de"
    fallbacks := []
    assets_src := "res/lang"
    assets_base_file_names := ["_"]
    assets_clean_unused := true }

/-- A pre-call state holding a previously loaded locale, used to observe
that a failed load changes nothing. -/
def prior_st : LocatorState :=
  { current_locale := some "fr"
    assets := [("fr", .obj [("x", .str "bonjour")])] }

/-- A transport oracle that fails every fetch. -/
def fetch_all_err : String → FetchResult := fun _ => .fetchErr

/-- A transport oracle whose every fetched fragment fails to parse. -/
def fetch_all_parse_err : String → FetchResult := fun _ => .parseErr

/-- Store of the non-string scenario: in A the full path x.y holds a
nested mapping, in the fallback B it holds a template. -/
def nonstr_assets : List (Locale × JValue) :=
  [("A", .obj [("x", .obj [("y", .obj [("z", .str "deep")])])]),
   ("B", .obj [("x", .obj [("y", .str "from-B")])])]

/-- Fallback graph of the non-string scenario: A falls back to B. -/
def nonstr_fallbacks : List (Locale × List Locale) := [("A", ["B"])]

/-- Configuration of the non-string scenario. -/
def nonstr_cfg : LocatorConfig :=
  { locale_path_components := [("A", "A"), ("B", "B")]
    supported_locales := ["A", "B"]
    default_locale := "A"
    fallbacks := nonstr_fallbacks
    assets_src := "res/lang"
    assets_base_file_names := ["_"]
    assets_clean_unused := true }

/-- State of the non-string scenario: A is active. -/
def nonstr_st : LocatorState :=
  { current_locale := some "A", assets := nonstr_assets }

/-- The same store with the fallback document also non-string at x.y, so
the whole chain misses. -/
def nonstr_assets_all : List (Locale × JValue) :=
  [("A", .obj [("x", .obj [("y", .obj [])])]),
   ("B", .obj [("x", .obj [("y", .num 3)])])]

/-- State whose chain has no string anywhere at x.y. -/
def nonstr_st_all : LocatorState :=
  { current_locale := some "A", assets := nonstr_assets_all }

theorem applyMessageGo_no_dollar (vars : List (String × String)) :
    ∀ (n : Nat) (l : List Char), (∀ c ∈ l, c ≠ '$') →
      applyMessageGo vars n l = l := by
  intro n
  induction n with
  | zero => intro l _; rfl
  | succ n ih =>
    intro l hl
    cases l with
    | nil => rfl
    | cons c rest =>
      have hc : c ≠ '$' := hl c (by simp)
      simp only [applyMessageGo, if_neg hc]
      exact congrArg (c :: ·) (ih rest (fun d hd => hl d (by simp [hd])))

theorem string_mk_data (s : String) : String.mk s.data = s := by
  cases s; rfl

/-- C6: apply_message replaces, left to right and non-overlapping, each
double dollar with a single literal dollar and every other dollar-name
token with the value of the variable when present or the literal text
undefined when absent, and never rescans substituted text; in particular
the template Hello $name, cost is $$5 with name bound to Ann yields
Hello Ann, cost is $5, and a template with no dollar sign at all is
returned unchanged. -/
theorem c6_interpolation_replaces_tokens :
    apply_message "Hello $name, cost is $$5" [("name", "Ann")] =
        "Hello Ann, cost is $5"
    ∧ apply_message "$missing" [] = "undefined"
    ∧ apply_message "$name" [("name", "$other"), ("other", "x")] = "$other"
    ∧ apply_message "$$" [] = "$"
    ∧ ∀ (vars : List (String × String)) (s : String),
        (∀ c ∈ s.data, c ≠ '$') → apply_message s vars = s := by
  refine ⟨by decide, by decide, by decide, by decide, ?_⟩
  intro vars s hs
  unfold apply_message
  rw [applyMessageGo_no_dollar vars s.data.length s.data hs, string_mk_data]

/-- Witness: a dollar-free template is returned unchanged. -/
theorem c6_interpolation_replaces_tokens_witness :
    apply_message "abc" [] = "abc" :=
  c6_interpolation_replaces_tokens.2.2.2.2 [] "abc" (by decide)

/-- C2: the closure enumeration of the source carries no visited guard,
so on the two-cycle between A and B it never terminates: for every
recursion depth the fueled model of enumerate_fallbacks reports the depth
exhausted, from either starting locale and from any already collected
output set, and current_locale_seq diverges with it. -/
theorem enumerate_cycle_diverges_aux :
    ∀ (n : Nat) (out : List Locale),
      enumerate_fallbacks cyc_fallbacks n "A" out = none
      ∧ enumerate_fallbacks cyc_fallbacks n "B" out = none := by
  intro n
  induction n with
  | zero => intro out; exact ⟨rfl, rfl⟩
  | succ n ih =>
    intro out
    exact ⟨(ih (insertLoc "B" out)).2, (ih (insertLoc "A" out)).1⟩

/-- C2: the closure enumeration of the source carries no visited guard,
so on the two-cycle between A and B it never terminates: for every
recursion depth the fueled model of enumerate_fallbacks reports the depth
exhausted, from either starting locale and from any already collected
output set, and current_locale_seq diverges with it.  This contradicts
the claimed visited tracking and the claimed terminating closures of A
and B. -/
theorem c2_enumerate_fallbacks_cycle_diverges :
    ∀ (n : Nat),
      (∀ (out : List Locale),
        enumerate_fallbacks cyc_fallbacks n "A" out = none
        ∧ enumerate_fallbacks cyc_fallbacks n "B" out = none)
      ∧ current_locale_seq cyc_cfg cyc_st n = none := by
  intro n
  refine ⟨enumerate_cycle_diverges_aux n, ?_⟩
  calc current_locale_seq cyc_cfg cyc_st n
      = enumerate_fallbacks cyc_fallbacks n "A" ["A"] := rfl
    _ = none := (enumerate_cycle_diverges_aux n ["A"]).1

theorem resolution_cycle_diverges_aux :
    ∀ (n : Nat) (vars : List (String × String)),
      get_formatted_with_locale cyc_fallbacks [] n "A" ["x"] vars = none
      ∧ get_formatted_with_locale cyc_fallbacks [] n "B" ["x"] vars = none := by
  intro n
  induction n with
  | zero => intro vars; exact ⟨rfl, rfl⟩
  | succ n ih =>
    intro vars
    exact ⟨(ih vars).2, (ih vars).1⟩

/-- C4: message resolution carries no record of the locales already on
the traversal path, so on the cyclic fallback graph between A and B a
lookup that no locale answers never terminates: for every recursion depth
the fueled model of get_formatted_with_locale reports the depth
exhausted, and the caller-facing get diverges with it.  This contradicts
the claimed guarantee that resolution never revisits a locale on the
current path and terminates on every fallback graph. -/
theorem c4_resolution_cycle_diverges :
    ∀ (n : Nat),
      (∀ (vars : List (String × String)),
        get_formatted_with_locale cyc_fallbacks [] n "A" ["x"] vars = none
        ∧ get_formatted_with_locale cyc_fallbacks [] n "B" ["x"] vars = none)
      ∧ get cyc_cfg cyc_st n "x" = none := by
  intro n
  refine ⟨resolution_cycle_diverges_aux n, ?_⟩
  calc get cyc_cfg cyc_st n "x"
      = (match get_formatted_with_locale cyc_fallbacks [] n "A" ["x"] [] with
         | none => none
         | some none => some (joinDots ["x"])
         | some (some r) => some r) := rfl
    _ = none := by rw [(resolution_cycle_diverges_aux n []).1]

/-- C1: whenever load returns the failure indicator, the state it leaves
behind is exactly the pre-call state: the asset store and the current
locale are untouched, so every later get_formatted call on the post-call
state answers exactly as on the pre-call state. -/
theorem c1_load_failure_is_atomic (cfg : LocatorConfig)
    (fetch : String → FetchResult) (st : LocatorState)
    (new_locale : Option Locale) (fuel : Nat) (st2 : LocatorState)
    (h : load cfg fetch st new_locale fuel = some (LoadResult.failed st2)) :
    st2 = st ∧ ∀ (fuel2 : Nat) (id : String) (options : List FormatArg),
      get_formatted cfg st2 fuel2 id options
        = get_formatted cfg st fuel2 id options := by
  have hst : st2 = st := by
    simp only [load] at h
    split at h
    · split at h
      · exact absurd h (by simp)
      · split at h
        · simp at h
        · simp only [Option.some.injEq, LoadResult.failed.injEq] at h
          exact h.symm
        · simp at h
    · simp at h
  exact ⟨hst, fun fuel2 id options => by rw [hst]⟩

/-- Witness for C1: with every fetch failing, loading en over a
previously committed state returns the failure indicator and preserves
the state. -/
theorem c1_load_failure_is_atomic_witness :
    load en_cfg fetch_all_err prior_st (some "en") 1
        = some (LoadResult.failed prior_st)
    ∧ prior_st = prior_st
    ∧ ∀ (fuel2 : Nat) (id : String) (options : List FormatArg),
        get_formatted en_cfg prior_st fuel2 id options
          = get_formatted en_cfg prior_st fuel2 id options :=
  ⟨rfl,
    (c1_load_failure_is_atomic en_cfg fetch_all_err prior_st (some "en") 1
      prior_st rfl).1,
    (c1_load_failure_is_atomic en_cfg fetch_all_err prior_st (some "en") 1
      prior_st rfl).2⟩

/-- Counterexample to C3: requesting a locale outside the supported set
does not make load return the failure indicator; the call aborts the
process instead. -/
theorem c3_counterexample_unsupported_locale_aborts :
    load unsupported_cfg fetch_all_err prior_st (some "en") 1
      = some LoadResult.panicked := rfl

theorem load_commit_shape (cfg : LocatorConfig) (fetch : String → FetchResult)
    (st : LocatorState) (l : Locale) (fuel : Nat) (tl : List Locale)
    (hmem : l ∈ cfg.supported_locales)
    (henum : enumerate_fallbacks cfg.fallbacks fuel l [l] = some tl) :
    load cfg fetch st (some l) fuel =
      match loadLocales cfg fetch tl [] with
      | .panicked => some .panicked
      | .failed => some (.failed st)
      | .ok new_assets =>
        some (.ok
          { current_locale := some l
            assets := new_assets.foldl (fun a p => assocInsert a p.1 p.2)
              (if cfg.assets_clean_unused then [] else st.assets) }) := by
  simp only [load, Option.getD_some]
  rw [if_pos hmem, henum]

/-- C3 amended: only a transport fetch failure makes load return the
failure indicator (with the prior state untouched); an unsupported target
locale, a closure locale with no declared path component, and a fragment
parse failure abort the process instead of returning the indicator. -/
theorem c3_load_failure_modes :
    (∀ (cfg : LocatorConfig) (fetch : String → FetchResult)
        (st : LocatorState) (l : Locale) (fuel : Nat),
      l ∉ cfg.supported_locales →
      load cfg fetch st (some l) fuel = some LoadResult.panicked)
    ∧ (∀ (cfg : LocatorConfig) (fetch : String → FetchResult)
          (st : LocatorState) (l : Locale) (fuel : Nat) (tl : List Locale)
          (b : String) (rest : List String) (comp : String),
        l ∈ cfg.supported_locales →
        enumerate_fallbacks cfg.fallbacks fuel l [l] = some (l :: tl) →
        cfg.assets_base_file_names = b :: rest →
        assocGet cfg.locale_path_components l = some comp →
        fetch (cfg.assets_src ++ "/" ++ comp ++ "/" ++ b ++ ".json")
          = FetchResult.fetchErr →
        load cfg fetch st (some l) fuel = some (LoadResult.failed st))
    ∧ (∀ (cfg : LocatorConfig) (fetch : String → FetchResult)
          (st : LocatorState) (l : Locale) (fuel : Nat) (tl : List Locale)
          (b : String) (rest : List String) (comp : String),
        l ∈ cfg.supported_locales →
        enumerate_fallbacks cfg.fallbacks fuel l [l] = some (l :: tl) →
        cfg.assets_base_file_names = b :: rest →
        assocGet cfg.locale_path_components l = some comp →
        fetch (cfg.assets_src ++ "/" ++ comp ++ "/" ++ b ++ ".json")
          = FetchResult.parseErr →
        load cfg fetch st (some l) fuel = some LoadResult.panicked)
    ∧ (∀ (cfg : LocatorConfig) (fetch : String → FetchResult)
          (st : LocatorState) (l : Locale) (fuel : Nat) (tl : List Locale)
          (b : String) (rest : List String),
        l ∈ cfg.supported_locales →
        enumerate_fallbacks cfg.fallbacks fuel l [l] = some (l :: tl) →
        cfg.assets_base_file_names = b :: rest →
        assocGet cfg.locale_path_components l = none →
        load cfg fetch st (some l) fuel = some LoadResult.panicked) := by
  refine ⟨?_, ?_, ?_, ?_⟩
  · intro cfg fetch st l fuel hmem
    simp only [load, Option.getD_some]
    rw [if_neg hmem]
  · intro cfg fetch st l fuel tl b rest comp hmem henum hbase hcomp hfetch
    have hsingle : load_single_locale cfg fetch l = LoadStep.failed := by
      unfold load_single_locale
      rw [hbase]
      simp only [loadSingleGo, hcomp, hfetch]
    have hall : loadLocales cfg fetch (l :: tl) [] = LoadAll.failed := by
      simp only [loadLocales, hsingle]
    rw [load_commit_shape cfg fetch st l fuel (l :: tl) hmem henum, hall]
  · intro cfg fetch st l fuel tl b rest comp hmem henum hbase hcomp hfetch
    have hsingle : load_single_locale cfg fetch l = LoadStep.panicked := by
      unfold load_single_locale
      rw [hbase]
      simp only [loadSingleGo, hcomp, hfetch]
    have hall : loadLocales cfg fetch (l :: tl) [] = LoadAll.panicked := by
      simp only [loadLocales, hsingle]
    rw [load_commit_shape cfg fetch st l fuel (l :: tl) hmem henum, hall]
  · intro cfg fetch st l fuel tl b rest hmem henum hbase hcomp
    have hsingle : load_single_locale cfg fetch l = LoadStep.panicked := by
      unfold load_single_locale
      rw [hbase]
      simp only [loadSingleGo, hcomp]
    have hall : loadLocales cfg fetch (l :: tl) [] = LoadAll.panicked := by
      simp only [loadLocales, hsingle]
    rw [load_commit_shape cfg fetch st l fuel (l :: tl) hmem henum, hall]

/-- Witness for the C3 amended claim: each of the four failure modes
realized on a concrete configuration. -/
theorem c3_load_failure_modes_witness :
    load unsupported_cfg fetch_all_err prior_st (some "en") 2
      = some LoadResult.panicked
    ∧ load en_cfg fetch_all_err prior_st (some "en") 1
        = some (LoadResult.failed prior_st)
    ∧ load en_cfg fetch_all_parse_err prior_st (some "en") 1
        = some LoadResult.panicked
    ∧ load nocomp_cfg fetch_all_err prior_st (some "de") 1
        = some LoadResult.panicked :=
  ⟨c3_load_failure_modes.1 unsupported_cfg fetch_all_err prior_st "en" 2
      (by decide),
    c3_load_failure_modes.2.1 en_cfg fetch_all_err prior_st "en" 1 [] "_" []
      "en" (by decide) rfl rfl rfl rfl,
    c3_load_failure_modes.2.2.1 en_cfg fetch_all_parse_err prior_st "en" 1 []
      "_" [] "en" (by decide) rfl rfl rfl rfl,
    c3_load_failure_modes.2.2.2 nocomp_cfg fetch_all_err prior_st "de" 1 []
      "_" [] (by decide) rfl rfl rfl⟩

theorem assocGet_insert_self {β : Type} (l : List (String × β)) (k : String)
    (v : β) : assocGet (assocInsert l k v) k = some v := by
  induction l with
  | nil => simp [assocInsert, assocGet]
  | cons p rest ih =>
    obtain ⟨k1, v1⟩ := p
    by_cases h : k1 = k
    · simp [assocInsert, h, assocGet]
    · simp [assocInsert, h, assocGet, ih]

theorem assocGet_insert_ne {β : Type} (l : List (String × β)) (k k2 : String)
    (v : β) (h : k ≠ k2) : assocGet (assocInsert l k v) k2 = assocGet l k2 := by
  induction l with
  | nil => simp [assocInsert, assocGet, h]
  | cons p rest ih =>
    obtain ⟨k1, v1⟩ := p
    by_cases h1 : k1 = k
    · subst h1
      simp [assocInsert, assocGet, h]
    · by_cases h2 : k1 = k2
      · simp [assocInsert, h1, assocGet, h2, Ne.symm h]
      · simp [assocInsert, h1, assocGet, h2, ih]

theorem jgetPath_fold_none : ∀ (t : List String),
    t.foldl (fun r seg => r.bind (fun v => jget v seg)) none = none := by
  intro t
  induction t with
  | nil => rfl
  | cons s t ih => exact ih

theorem jgetPath_cons (root : JValue) (s : String) (t : List String) :
    jgetPath root (s :: t) =
      match jget root s with
      | some v => jgetPath v t
      | none => none := by
  cases h : jget root s with
  | some v =>
    show List.foldl _ (jget root s) t = _
    rw [h]
    rfl
  | none =>
    show List.foldl _ (jget root s) t = _
    rw [h]
    exact jgetPath_fold_none t

theorem applyDeepGo_assigns :
    ∀ (segs : List String), segs ≠ [] →
      ∀ (assign : JValue) (fields : List (String × JValue)),
        jgetPath (applyDeepGo segs assign (.obj fields)) segs = some assign := by
  intro segs
  induction segs with
  | nil => intro h; exact absurd rfl h
  | cons seg rest ih =>
    intro _ assign fields
    cases rest with
    | nil =>
      show jgetPath (.obj (assocInsert fields seg assign)) [seg] = some assign
      rw [jgetPath_cons]
      show (match jget (.obj (assocInsert fields seg assign)) seg with
        | some v => jgetPath v []
        | none => none) = some assign
      have : jget (.obj (assocInsert fields seg assign)) seg = some assign :=
        assocGet_insert_self fields seg assign
      rw [this]
      rfl
    | cons s2 rest2 =>
      have hchild : ∃ cf, (match jget (.obj fields) seg with
          | some c => if c.isObj then c else JValue.obj []
          | none => JValue.obj []) = JValue.obj cf := by
        cases h : jget (.obj fields) seg with
        | none => exact ⟨[], rfl⟩
        | some c =>
          cases c with
          | obj cf => exact ⟨cf, rfl⟩
          | null => exact ⟨[], rfl⟩
          | bool b => exact ⟨[], rfl⟩
          | num m => exact ⟨[], rfl⟩
          | str s => exact ⟨[], rfl⟩
          | arr xs => exact ⟨[], rfl⟩
      obtain ⟨cf, hcf⟩ := hchild
      show jgetPath (.obj (assocInsert fields seg
        (applyDeepGo (s2 :: rest2) assign
          (match jget (.obj fields) seg with
           | some c => if c.isObj then c else JValue.obj []
           | none => JValue.obj [])))) (seg :: s2 :: rest2) = some assign
      rw [hcf, jgetPath_cons]
      have : jget (.obj (assocInsert fields seg
          (applyDeepGo (s2 :: rest2) assign (JValue.obj cf)))) seg
          = some (applyDeepGo (s2 :: rest2) assign (JValue.obj cf)) :=
        assocGet_insert_self fields seg _
      rw [this]
      exact ih (by simp) assign cf

theorem applyDeepGo_preserves (seg : String) (rest : List String)
    (assign : JValue) (fields : List (String × JValue)) (k : String)
    (h : seg ≠ k) :
    jget (applyDeepGo (seg :: rest) assign (.obj fields)) k
      = jget (.obj fields) k := by
  cases rest with
  | nil => exact assocGet_insert_ne fields seg k assign h
  | cons s2 rest2 => exact assocGet_insert_ne fields seg k _ h

/-- C9: the deep merge interprets every path separator in the fragment
name as one nesting level, forces a mapping node at every intermediate
segment (overwriting whatever non-mapping value may sit there), and
assigns the fragment value at the final segment, overwriting whatever was
there: after the merge, looking the split name path up in the document
yields the assigned value, and every other top-level key is untouched. -/
theorem c9_apply_deep_nested_assign :
    ∀ (name : String) (assign : JValue) (fields : List (String × JValue))
      (seg : String) (rest : List String),
      splitSegs '/' name = seg :: rest →
      jgetPath (apply_deep name assign (.obj fields)) (splitSegs '/' name)
          = some assign
      ∧ ∀ (k : String), seg ≠ k →
          jget (apply_deep name assign (.obj fields)) k
            = jget (JValue.obj fields) k := by
  intro name assign fields seg rest hsplit
  constructor
  · unfold apply_deep
    rw [hsplit]
    exact applyDeepGo_assigns (seg :: rest) (by simp) assign fields
  · intro k hk
    unfold apply_deep
    rw [hsplit]
    exact applyDeepGo_preserves seg rest assign fields k hk

/-- Witness for C9: merging fragment a/b overwrites the non-mapping value
at key a with a nested mapping holding the assigned value at b, and
leaves the unrelated key z untouched. -/
theorem c9_apply_deep_nested_assign_witness :
    jgetPath (apply_deep "a/b" (.str "new")
        (.obj [("a", .str "old"), ("z", .str "keep")])) (splitSegs '/' "a/b")
      = some (.str "new")
    ∧ jget (apply_deep "a/b" (.str "new")
        (.obj [("a", .str "old"), ("z", .str "keep")])) "z"
      = jget (JValue.obj [("a", .str "old"), ("z", .str "keep")]) "z" :=
  ⟨(c9_apply_deep_nested_assign "a/b" (.str "new")
      [("a", .str "old"), ("z", .str "keep")] "a" ["b"] rfl).1,
    (c9_apply_deep_nested_assign "a/b" (.str "new")
      [("a", .str "old"), ("z", .str "keep")] "a" ["b"] rfl).2 "z"
      (by decide)⟩

/-- C10: a value present at the full identifier path but not a string is
reported as not found by resolve_id, so resolution moves on through the
fallback chain (here finding the string of the fallback B) and, when the
whole chain lacks a string there, degrades to the identifier text. -/
theorem c10_non_string_value_is_not_found :
    (∀ (root : JValue) (id : List String) (v : JValue),
      jgetPath root id = some v → v.asStr = none →
      resolve_id (some root) id = none)
    ∧ get_formatted_with_locale nonstr_fallbacks nonstr_assets 2 "A"
        ["x", "y"] [] = some (some "from-B")
    ∧ get nonstr_cfg nonstr_st_all 2 "x.y" = some "x.y" := by
  refine ⟨?_, rfl, rfl⟩
  intro root id v h1 h2
  show (jgetPath root id).bind JValue.asStr = none
  rw [h1]
  exact h2

/-- Witness for C10: a nested mapping at the looked-up path is not a
template. -/
theorem c10_non_string_value_is_not_found_witness :
    resolve_id (some (JValue.obj [("x", JValue.obj [])])) ["x"] = none :=
  c10_non_string_value_is_not_found.1 (JValue.obj [("x", JValue.obj [])])
    ["x"] (JValue.obj []) rfl rfl

theorem foldl_search_none (fb : List (Locale × List Locale))
    (assets : List (Locale × JValue)) (n : Nat) (id : List String)
    (vars : List (String × String)) :
    ∀ (fls : List Locale),
      fls.foldl (fun acc fl =>
        match acc with
        | none => none
        | some (some r) => some (some r)
        | some none => get_formatted_with_locale fb assets n fl id vars)
        none = none := by
  intro fls
  induction fls with
  | nil => rfl
  | cons fl rest ih => exact ih

theorem foldl_search_found (fb : List (Locale × List Locale))
    (assets : List (Locale × JValue)) (n : Nat) (id : List String)
    (vars : List (String × String)) (r : String) :
    ∀ (fls : List Locale),
      fls.foldl (fun acc fl =>
        match acc with
        | none => none
        | some (some r2) => some (some r2)
        | some none => get_formatted_with_locale fb assets n fl id vars)
        (some (some r)) = some (some r) := by
  intro fls
  induction fls with
  | nil => rfl
  | cons fl rest ih => exact ih

theorem foldl_search_eq_siblings (fb : List (Locale × List Locale))
    (assets : List (Locale × JValue)) (n : Nat) (id : List String)
    (vars : List (String × String)) :
    ∀ (fls : List Locale),
      fls.foldl (fun acc fl =>
        match acc with
        | none => none
        | some (some r) => some (some r)
        | some none => get_formatted_with_locale fb assets n fl id vars)
        (some none) = searchSiblings fb assets n fls id vars := by
  intro fls
  induction fls with
  | nil => rfl
  | cons fl rest ih =>
    have hstep : (fl :: rest).foldl (fun acc fl =>
        match acc with
        | none => none
        | some (some r) => some (some r)
        | some none => get_formatted_with_locale fb assets n fl id vars)
        (some none)
        = rest.foldl (fun acc fl =>
        match acc with
        | none => none
        | some (some r) => some (some r)
        | some none => get_formatted_with_locale fb assets n fl id vars)
        (get_formatted_with_locale fb assets n fl id vars) := rfl
    rw [hstep]
    cases h : get_formatted_with_locale fb assets n fl id vars with
    | none =>
      refine (foldl_search_none fb assets n id vars rest).trans ?_
      simp only [searchSiblings, h]
    | some o =>
      cases o with
      | some r =>
        refine (foldl_search_found fb assets n id vars r rest).trans ?_
        simp only [searchSiblings, h]
      | none =>
        simp only [searchSiblings, h]
        exact ih

theorem getFmt_succ (fb : List (Locale × List Locale))
    (assets : List (Locale × JValue)) (n : Nat) (loc : Locale)
    (id : List String) (vars : List (String × String)) :
    get_formatted_with_locale fb assets (n + 1) loc id vars =
      match resolve_id (assocGet assets loc) id with
      | some message => some (some (apply_message message vars))
      | none =>
        match assocGet fb loc with
        | none => some none
        | some fls => searchSiblings fb assets n fls id vars := by
  cases hres : resolve_id (assocGet assets loc) id with
  | some m => simp only [get_formatted_with_locale, hres]
  | none =>
    cases hfb : assocGet fb loc with
    | none => simp only [get_formatted_with_locale, hres, hfb]
    | some fls =>
      simp only [get_formatted_with_locale, hres, hfb]
      exact foldl_search_eq_siblings fb assets n id vars fls

theorem firstTemplate_append (assets : List (Locale × JValue))
    (id : List String) (l2 : List Locale) :
    ∀ (l1 : List Locale),
      firstTemplate assets id (l1 ++ l2) =
        match firstTemplate assets id l1 with
        | some m => some m
        | none => firstTemplate assets id l2 := by
  intro l1
  induction l1 with
  | nil => rfl
  | cons l rest ih =>
    cases h : resolve_id (assocGet assets l) id with
    | some m => simp only [List.cons_append, firstTemplate, h]
    | none =>
      simp only [List.cons_append, firstTemplate, h]
      exact ih

theorem searchSiblings_refines (fb : List (Locale × List Locale))
    (assets : List (Locale × JValue)) (n : Nat) (id : List String)
    (vars : List (String × String))
    (ih : ∀ (loc : Locale),
      get_formatted_with_locale fb assets n loc id vars ≠ none →
      get_formatted_with_locale fb assets n loc id vars =
        some ((firstTemplate assets id (dfsOrder fb n loc)).map
          (fun m => apply_message m vars))) :
    ∀ (fls : List Locale),
      searchSiblings fb assets n fls id vars ≠ none →
      searchSiblings fb assets n fls id vars =
        some ((firstTemplate assets id (fls.flatMap (dfsOrder fb n))).map
          (fun m => apply_message m vars)) := by
  intro fls
  induction fls with
  | nil => intro _; rfl
  | cons fl rest irest =>
    intro hne
    cases h : get_formatted_with_locale fb assets n fl id vars with
    | none => simp only [searchSiblings, h, ne_eq, not_true_eq_false] at hne
    | some o =>
      have hfl := ih fl (by simp [h])
      rw [h] at hfl
      cases o with
      | some r =>
        have hmap := (Option.some.inj hfl).symm
        obtain ⟨m, hm1, hm2⟩ := Option.map_eq_some'.mp hmap
        simp only [searchSiblings, h]
        rw [List.flatMap_cons, firstTemplate_append, hm1]
        simp only [Option.map_some']
        rw [hm2]
      | none =>
        have hft : firstTemplate assets id (dfsOrder fb n fl) = none :=
          Option.map_eq_none'.mp (Option.some.inj hfl).symm
        simp only [searchSiblings, h] at hne ⊢
        rw [List.flatMap_cons, firstTemplate_append, hft]
        exact irest hne

theorem getFmt_refines_dfs (fb : List (Locale × List Locale))
    (assets : List (Locale × JValue)) :
    ∀ (fuel : Nat) (loc : Locale) (id : List String)
      (vars : List (String × String)),
      get_formatted_with_locale fb assets fuel loc id vars ≠ none →
      get_formatted_with_locale fb assets fuel loc id vars =
        some ((firstTemplate assets id (dfsOrder fb fuel loc)).map
          (fun m => apply_message m vars)) := by
  intro fuel
  induction fuel with
  | zero => intro loc id vars h; exact absurd rfl h
  | succ n ih =>
    intro loc id vars h
    rw [getFmt_succ] at h ⊢
    simp only [dfsOrder, firstTemplate]
    cases hres : resolve_id (assocGet assets loc) id with
    | some m => simp only [hres, Option.map_some']
    | none =>
      simp only [hres]
      cases hfb : assocGet fb loc with
      | none => simp only [hfb, Option.getD_none, List.flatMap_nil]; rfl
      | some fls =>
        simp only [hfb, Option.getD_some]
        rw [hres, hfb] at h
        exact searchSiblings_refines fb assets n id vars
          (fun loc => ih loc id vars) fls h

/-- C5: the search of get_formatted_with_locale is exactly the first
template found in the depth-first resolution order: the active locale
itself first, then every declared fallback in declared order, each
descended recursively before its next sibling; whenever the search
terminates it returns the interpolation of that first template (with the
not-found outcome mapped through).  In the concrete scenario where L has
the fallbacks F1 then F2 and only F2 defines x.y, get returns the value
of F2. -/
theorem c5_resolution_is_depth_first :
    (∀ (fb : List (Locale × List Locale)) (assets : List (Locale × JValue))
        (fuel : Nat) (loc : Locale) (id : List String)
        (vars : List (String × String)),
      get_formatted_with_locale fb assets fuel loc id vars ≠ none →
      get_formatted_with_locale fb assets fuel loc id vars =
        some ((firstTemplate assets id (dfsOrder fb fuel loc)).map
          (fun m => apply_message m vars)))
    ∧ get res_cfg res_st 5 "x.y" = some "from-F2" :=
  ⟨fun fb assets => getFmt_refines_dfs fb assets, rfl⟩

/-- Witness for C5: the refinement applied to the concrete three-locale
scenario. -/
theorem c5_resolution_is_depth_first_witness :
    get_formatted_with_locale res_fallbacks res_assets 5 "L" ["x", "y"] []
      = some ((firstTemplate res_assets ["x", "y"]
          (dfsOrder res_fallbacks 5 "L")).map
            (fun m => apply_message m [])) :=
  c5_resolution_is_depth_first.1 res_fallbacks res_assets 5 "L" ["x", "y"] []
    (by decide)

/-- C7: whenever the identifier (after suffix augmentation) is found in
no locale of the fallback chain, and also when no locale has been loaded
yet, get_formatted returns the identifier path segments rejoined with
dots as a plain string rather than an error. -/
theorem c7_lookup_miss_degrades_to_identifier :
    ∀ (cfg : LocatorConfig) (st : LocatorState) (fuel : Nat) (id : String)
      (options : List FormatArg),
      (st.current_locale = none →
        get_formatted cfg st fuel id options
          = some (joinDots (splitSegs '.' (composeLoop options id none).1)))
      ∧ ∀ (cur : Locale), st.current_locale = some cur →
          get_formatted_with_locale cfg.fallbacks st.assets fuel cur
              (splitSegs '.' (composeLoop options id none).1)
              ((composeLoop options id none).2.getD []) = some none →
          get_formatted cfg st fuel id options
            = some (joinDots (splitSegs '.' (composeLoop options id none).1)) := by
  intro cfg st fuel id options
  constructor
  · intro hcur
    simp only [get_formatted, hcur]
  · intro cur hcur hsearch
    simp only [get_formatted, hcur, hsearch]

/-- Witness for C7: an identifier no locale defines comes back verbatim
from a terminated search. -/
theorem c7_lookup_miss_degrades_to_identifier_witness :
    get_formatted res_cfg res_st 2 "no.such.id" []
        = some (joinDots (splitSegs '.' (composeLoop [] "no.such.id" none).1))
    ∧ get_formatted res_cfg res_st 2 "no.such.id" [] = some "no.such.id" := by
  have h := (c7_lookup_miss_degrades_to_identifier res_cfg res_st 2
    "no.such.id" []).2 "L" rfl rfl
  exact ⟨h, h.trans rfl⟩

theorem orVar_none_right {α : Type} (a : Option α) : orVar a none = a := by
  cases a <;> rfl

theorem orVar_some_absorb {α : Type} (a : Option α) (m : α) (b : Option α) :
    orVar (orVar a (some m)) b = orVar a (some m) := by
  cases a <;> rfl

theorem composeLoop_closed_form :
    ∀ (options : List FormatArg) (id : String)
      (v0 : Option (List (String × String))),
      composeLoop options id v0 =
        (id ++ strJoin (options.map suffixText),
          orVar (lastVarMap options) v0) := by
  intro options
  induction options with
  | nil =>
    intro id v0
    simp only [composeLoop, List.map_nil, strJoin, String.append_empty,
      lastVarMap, orVar]
  | cons o rest ih =>
    cases o with
    | litStr s =>
      intro id v0
      simp only [composeLoop, ih, List.map_cons, suffixText, strJoin,
        lastVarMap, toMap, orVar_none_right, String.append_assoc]
    | strVal s =>
      intro id v0
      simp only [composeLoop, ih, List.map_cons, suffixText, strJoin,
        lastVarMap, toMap, orVar_none_right, String.append_assoc]
    | varMap m =>
      intro id v0
      simp only [composeLoop, ih, List.map_cons, suffixText, strJoin,
        lastVarMap, toMap, String.empty_append, orVar_some_absorb]

theorem lastVarMap_append_map (m : List (String × String)) :
    ∀ (options : List FormatArg),
      lastVarMap (options ++ [FormatArg.varMap m]) = some m := by
  intro options
  induction options with
  | nil => rfl
  | cons o rest ih =>
    show orVar (lastVarMap (rest ++ [FormatArg.varMap m])) (toMap o) = some m
    rw [ih]
    rfl

/-- C8: processing the format arguments appends each literal-suffix or
stringifiable argument in order to the identifier joined with an
underscore, the last variable-mapping argument supplied is the one kept,
and with no variable-mapping argument the mapping stays absent (so the
caller side falls back to the empty mapping); in particular the base id
greeting with suffix argument male looks up greeting_male. -/
theorem c8_format_argument_protocol :
    (∀ (options : List FormatArg) (id : String)
        (v0 : Option (List (String × String))),
      composeLoop options id v0 =
        (id ++ strJoin (options.map suffixText),
          orVar (lastVarMap options) v0))
    ∧ (composeLoop [FormatArg.litStr "male"] "greeting" none).1
        = "greeting_male"
    ∧ (∀ (options : List FormatArg) (id : String)
          (m : List (String × String)),
        (composeLoop (options ++ [FormatArg.varMap m]) id none).2 = some m)
    ∧ (∀ (id : String), composeLoop [] id none = (id, none)) := by
  refine ⟨composeLoop_closed_form, rfl, ?_, fun id => rfl⟩
  intro options id m
  rw [composeLoop_closed_form]
  show orVar (lastVarMap (options ++ [FormatArg.varMap m])) none = some m
  rw [lastVarMap_append_map m options]
  rfl

end MessageLocator
